import Mathlib

/-!
# Verification of the `asyncapi_discovery` core pipeline

Shallow embedding of the event-detection and AsyncAPI-document-generation
core of the `asyncapi_discovery` repository, together with proofs about it.

The embedding covers:
* `event_detector.py` — `EventDetector._extract_event_name`,
  `EventDetector._parse_event`, `EventDetector._deduplicate_events` and the
  accumulation/deduplication part of `EventDetector.detect_events`
  (the Sourcegraph search client is an excluded external collaborator, so
  `detect_events` is modelled on a list of matches already tagged with the
  broker category that claimed them, in encounter order);
* `catalog_manager.py` — `CatalogManager._create_specification` and
  `CatalogManager._group_events_by_broker`;
* `src/asyncapi_discovery/asynapi_generator.py` — the AsyncAPI 3.0
  generator (`generate_spec` and all its `_generate_*` helpers);
* `src/asyncapi_discovery/generator.py` — the AsyncAPI 2.6 generator
  (`AsyncAPIGenerator.generate` and `_create_channel`), up to (but not
  including) the terminal YAML serialization, which is boundary I/O.

Python dictionaries of unconstrained shape (the Sourcegraph match objects)
are modelled by the dynamic value type `PyVal`; `dict.get`, truthiness,
iteration and `str`-conversion are modelled by `pyGet`, `pyTruthy`,
`pyIterList` and `pyToStr`.  Exceptions are modelled with `Except Unit`;
the `try/except` in `_parse_event` becomes a `match` sending errors to
`Option.none`.  The wall-clock timestamp (`datetime.utcnow().isoformat()`)
and the enumeration order chosen by the Python runtime for
`list(set(...))` are nondeterministic runtime inputs, so they are passed
to the generator as explicit parameters (`now`, `pySet`).
-/

deriving instance DecidableEq for Except

/-- A dynamic Python value, as far as the detector's match-parsing code can
observe one: `None`, booleans, integers, strings, lists and string-keyed
dictionaries. -/
inductive PyVal where
  | none : PyVal
  | bool : Bool → PyVal
  | int : Int → PyVal
  | str : String → PyVal
  | list : List PyVal → PyVal
  | dict : List (String × PyVal) → PyVal

/-- Python `v.get(k, dflt)`: succeeds on dictionaries (returning `dflt` when
the key is absent) and raises `AttributeError` on every other value. -/
def pyGet (v : PyVal) (k : String) (dflt : PyVal) : Except Unit PyVal :=
  match v with
  | .dict kvs => .ok ((kvs.lookup k).getD dflt)
  | _ => .error ()

/-- Python truthiness (`if v:`). -/
def pyTruthy : PyVal → Bool
  | .none => false
  | .bool b => b
  | .int n => n != 0
  | .str s => s ≠ ""
  | .list xs => !xs.isEmpty
  | .dict kvs => !kvs.isEmpty

/-- Python iteration (`for x in v`): lists iterate their elements, strings
their one-character substrings, dictionaries their keys; every other value
raises `TypeError`. -/
def pyIterList : PyVal → Except Unit (List PyVal)
  | .list xs => .ok xs
  | .str s => .ok (s.data.map (fun c => .str (String.mk [c])))
  | .dict kvs => .ok (kvs.map (fun kv => .str kv.1))
  | _ => .error ()

/-- Python `str(v)` as used by f-string interpolation.  Scalars are rendered
exactly; for aggregates only an approximation of `repr` is produced (in this
repository only string values ever reach an interpolation site). -/
def pyToStr : PyVal → String
  | .none => "None"
  | .bool b => if b then "True" else "False"
  | .int n => toString n
  | .str s => s
  | .list _ => "[...]"
  | .dict _ => "\x7b...\x7d"

/-! ## `event_detector.py`: quoted-literal scanning

`EventDetector._extract_event_name` runs
`re.findall(r'["\']([a-zA-Z0-9._-]+)["\']', line)`.  The Python regex
engine scans left to right; at a position holding a quote character it
greedily takes the maximal run of `[a-zA-Z0-9._-]` characters and the match
succeeds exactly when that run is nonempty and followed directly by another
(not necessarily equal) quote character — no backtracked shorter run can
succeed because every character of the run is itself not a quote.  On
success the scan resumes after the closing quote (matches do not overlap);
on failure it advances one position.  `findallAux` implements exactly this
scan, using a character-count fuel so that the definition is structurally
recursive (the fuel `cs.length` is always sufficient: every recursive call
strictly shrinks the character list). -/

/-- Characters of the literal class `[a-zA-Z0-9._-]`. -/
def isTokenChar (c : Char) : Bool :=
  c.isAlpha || c.isDigit || c = '.' || c = '_' || c = '-'

/-- A single or double quote, i.e. the class `["\']` of the pattern. -/
def isQuoteChar (c : Char) : Bool :=
  c = '"' || c = Char.ofNat 39

/-- The left-to-right non-overlapping scan performed by `re.findall` with
pattern `["\']([a-zA-Z0-9._-]+)["\']`, with explicit fuel. -/
def findallAux : Nat → List Char → List String
  | 0, _ => []
  | _ + 1, [] => []
  | fuel + 1, c :: rest =>
    if isQuoteChar c then
      let tok := rest.takeWhile isTokenChar
      match rest.dropWhile isTokenChar with
      | c2 :: rest2 =>
        if !tok.isEmpty && isQuoteChar c2 then
          String.mk tok :: findallAux fuel rest2
        else
          findallAux fuel rest
      | [] => findallAux fuel rest
    else
      findallAux fuel rest

/-- All group captures of
`re.findall(r'["\']([a-zA-Z0-9._-]+)["\']', line)`, in match order. -/
def findallLits (cs : List Char) : List String :=
  findallAux cs.length cs

/-- The "reasonable-looking string" test of `_extract_event_name`:
`len(s) > 2 and not s.startswith('_')` (a one-character prefix test, taken
at the character level so that it evaluates by kernel reduction). -/
def qualifies (s : String) : Bool :=
  decide (2 < s.data.length) &&
    !(match s.data with
      | c :: _ => c = '_'
      | [] => false)

/-- The per-line loop of `_extract_event_name`: for each line match, get
its `line` text (default `''`), run `re.findall` on it and return the first
qualifying capture; otherwise continue with the remaining line matches. -/
def extractGo : List PyVal → Except Unit (Option String)
  | [] => Except.ok Option.none
  | lm :: rest => do
    let lineV ← pyGet lm "line" (.str "")
    let line ← (match lineV with
      | .str s => Except.ok s
      | _ => Except.error ())
    match (findallLits line.data).find? qualifies with
    | Option.some s => Except.ok (Option.some s)
    | Option.none => extractGo rest

/-- `EventDetector._extract_event_name(line_matches, broker_type)`:
first qualifying quoted literal across the matched lines, in encounter
order, else the synthesized default `f"{broker_type}_event"`. -/
def extract_event_name (line_matches : PyVal) (broker_type : String) :
    Except Unit String := do
  let lms ← pyIterList line_matches
  match ← extractGo lms with
  | Option.some s => Except.ok s
  | Option.none => Except.ok (broker_type ++ "_event")

/-! ## `event_detector.py`: parsing matches and deduplicating events -/

/-- One detected event record, as built by `EventDetector._parse_event`.
`name` and `broker` are always strings (the extractor returns a string and
the broker tag is the pattern-table key); the provenance fields copy
whatever values the match dictionary held. -/
structure DEvent where
  name : String
  broker : String
  file : PyVal
  repository : PyVal
  lines : List PyVal
  source_code : List PyVal

/-- `EventDetector._parse_event(match, broker_type)`.  The `try/except`
wrapping the body is modelled by sending every raised error to
`Option.none` ("logged and skipped"). -/
def parse_event (m : PyVal) (broker_type : String) : Option DEvent :=
  let comp : Except Unit (Option DEvent) := do
    let fileObj ← pyGet m "file" (.dict [])
    let file_path ← pyGet fileObj "path" (.str "")
    let repoObj ← pyGet m "repository" (.dict [])
    let repo_name ← pyGet repoObj "name" (.str "")
    let line_matches ← pyGet m "lineMatches" (.list [])
    if pyTruthy line_matches then
      let event_name ← extract_event_name line_matches broker_type
      let lms ← pyIterList line_matches
      let lineNums ← lms.mapM (fun lm => pyGet lm "lineNumber" (.int 0))
      let source ← lms.mapM (fun lm => pyGet lm "line" (.str ""))
      Except.ok (Option.some
        { name := event_name, broker := broker_type, file := file_path
          repository := repo_name, lines := lineNums, source_code := source })
    else
      Except.ok Option.none
  match comp with
  | .ok r => r
  | .error _ => Option.none

/-- The deduplication key `(event['name'], event['broker'])`. -/
def eventKey (e : DEvent) : String × String :=
  (e.name, e.broker)

/-- The loop of `EventDetector._deduplicate_events`, with the `seen` set
modelled as the list of keys added so far. -/
def dedupGo : List (String × String) → List DEvent → List DEvent
  | _, [] => []
  | seen, e :: rest =>
    if eventKey e ∈ seen then dedupGo seen rest
    else e :: dedupGo (eventKey e :: seen) rest

/-- `EventDetector._deduplicate_events(events)`. -/
def deduplicate_events (events : List DEvent) : List DEvent :=
  dedupGo [] events

/-- The accumulation part of `EventDetector.detect_events`: the search
client (excluded collaborator) yields, for each `(broker, pattern)` pair in
table order, a batch of matches; the loop parses each match under the
broker tag that claimed it, keeps the non-`None` results in encounter
order, and deduplicates.  `tagged` is that stream of claimed matches. -/
def detect_events (tagged : List (PyVal × String)) : List DEvent :=
  deduplicate_events (tagged.filterMap (fun p => parse_event p.1 p.2))

example : findallLits "x=\"orders\" 'a' \"_hid\"".data = ["orders", "a", "_hid"] := by
  decide

example :
    extract_event_name
      (.list [.dict [("line", .str "kafkaTemplate.send(\"payment.processed\", ...)")]])
      "kafka" = .ok "payment.processed" := by decide

/-! ## Insertion-ordered dictionaries

Python 3.7+ dictionaries preserve insertion order; assignment to an
existing key overwrites the value in place.  They are modelled as
association lists with `dictSet` as assignment.  The
`if k not in groups: groups[k] = []` / `groups[k].append(e)` grouping
pattern used by both generators becomes `upsertGroup`/`groupGo`. -/

/-- Python dictionary assignment `d[k] = v`: overwrite in place when the
key exists, append otherwise. -/
def dictSet {α : Type} (k : String) (v : α) : List (String × α) → List (String × α)
  | [] => [(k, v)]
  | (k2, v2) :: rest =>
    if k2 = k then (k, v) :: rest else (k2, v2) :: dictSet k v rest

/-- Append `e` to the group of key `k`, creating the group (at the end, in
insertion order) when absent. -/
def upsertGroup {β : Type} (k : String) (e : β) :
    List (String × List β) → List (String × List β)
  | [] => [(k, [e])]
  | (k2, es) :: rest =>
    if k2 = k then (k2, es ++ [e]) :: rest else (k2, es) :: upsertGroup k e rest

/-- The grouping loop: `for e in events: groups.setdefault(key(e), []).append(e)`. -/
def groupGo {β : Type} (key : β → String) :
    List (String × List β) → List β → List (String × List β)
  | acc, [] => acc
  | acc, e :: rest => groupGo key (upsertGroup (key e) e acc) rest

/-- Group a list by a string key, preserving first-seen key order
(`CatalogManager._group_events_by_broker` and the broker/channel grouping
loops of the AsyncAPI 3.0 generator all follow this shape). -/
def pyGroupBy {β : Type} (key : β → String) (events : List β) :
    List (String × List β) :=
  groupGo key [] events

/-! ## `catalog_manager.py`: `CatalogManager._create_specification` -/

/-- One entry of the catalog specification's `servers` map. -/
structure CatServer where
  url : String
  protocol : String
  description : String
deriving DecidableEq

/-- The `subscribe` block of a catalog channel. -/
structure CatSubscribe where
  operationId : String
  summary : String
  messageRef : String
deriving DecidableEq

/-- One entry of the catalog specification's `channels` map. -/
structure CatChannel where
  description : String
  subscribe : CatSubscribe
deriving DecidableEq

/-- One entry of `components.messages` in the catalog specification. -/
structure CatMessage where
  name : String
  title : String
  summary : String
  contentType : String
  payloadRef : String
deriving DecidableEq

/-- One property of the placeholder payload schema. -/
structure CatProperty where
  type : String
  description : String
  format : Option String
deriving DecidableEq

/-- One entry of `components.schemas`: the fixed placeholder object schema. -/
structure CatSchema where
  type : String
  properties : List (String × CatProperty)
deriving DecidableEq

/-- The `info.contact` block. -/
structure CatContact where
  name : String
  url : String
deriving DecidableEq

/-- The `info` block of the catalog specification. -/
structure CatInfo where
  title : String
  version : String
  description : String
  contact : CatContact
deriving DecidableEq

/-- The AsyncAPI 2.6 document built by `CatalogManager._create_specification`. -/
structure CatSpec where
  asyncapi : String
  info : CatInfo
  servers : List (String × CatServer)
  channels : List (String × CatChannel)
  messages : List (String × CatMessage)
  schemas : List (String × CatSchema)
deriving DecidableEq

/-- The placeholder payload schema added for every event
(`eventId`/`timestamp`/`data`). -/
def catPlaceholderSchema : CatSchema :=
  { type := "object"
    properties :=
      [ ("eventId", { type := "string", description := "Unique event identifier", format := Option.none })
      , ("timestamp", { type := "string", description := "Event timestamp", format := Option.some "date-time" })
      , ("data", { type := "object", description := "Event payload data", format := Option.none }) ] }

/-- `CatalogManager._group_events_by_broker(events)` (the `broker` key is
always present on detector-built event records, so the `.get('broker',
'generic')` default never fires). -/
def group_events_by_broker (events : List DEvent) : List (String × List DEvent) :=
  pyGroupBy (fun e => e.broker) events

/-- `CatalogManager._create_specification(repo, events)`. -/
def create_specification (repo : String) (events : List DEvent) : CatSpec :=
  let repo_name :=
    if repo.data.contains '/' then ((repo.data.reverse.takeWhile (fun c => c ≠ '/')).reverse : List Char) |> String.mk
    else repo
  let brokers := group_events_by_broker events
  let servers := brokers.foldl
    (fun acc g =>
      dictSet (g.1 ++ "_server")
        { url := g.1 ++ "://localhost"
          protocol := g.1
          description := String.mk (g.1.data.map Char.toUpper) ++ " broker" } acc) []
  let channels := events.foldl
    (fun acc e =>
      dictSet e.name
        { description := "Event channel for " ++ e.name
          subscribe :=
            { operationId := "subscribe_" ++ e.name
              summary := "Subscribe to " ++ e.name ++ " events"
              messageRef := "#/components/messages/" ++ e.name ++ "_message" } } acc) []
  let messages := events.foldl
    (fun acc e =>
      dictSet (e.name ++ "_message")
        { name := e.name
          title := e.name ++ " Event"
          summary := "Event produced from " ++ pyToStr e.file
          contentType := "application/json"
          payloadRef := "#/components/schemas/" ++ e.name ++ "_payload" } acc) []
  let schemas := events.foldl
    (fun acc e => dictSet (e.name ++ "_payload") catPlaceholderSchema acc) []
  { asyncapi := "2.6.0"
    info :=
      { title := repo_name ++ " Event API"
        version := "1.0.0"
        description := "AsyncAPI specification for event producers in " ++ repo
        contact :=
          { name := "AsyncAPI Discovery Tool"
            url := "https://github.com/ai-digital-architect/asyncapi_discovery" } }
    servers := servers
    channels := channels
    messages := messages
    schemas := schemas }

/-! ## `src/asyncapi_discovery/asynapi_generator.py`: the AsyncAPI 3.0 generator

Generator-side event metadata dictionaries carry optional fields read with
`.get`; they are modelled as a structure of `Option` fields (a dictionary
with exactly the keys this generator and the 2.6 generator read, each
possibly absent).  Python `==` on such dictionaries is structural equality,
which coincides with `DecidableEq` on the structure. -/

/-- A generator-side event metadata record. -/
structure GEvent where
  name : Option String
  channel_name : Option String
  broker : Option String
  operation : Option String
  channel_type : Option String
  message_type : Option String
  repository : Option String
  file_path : Option String
  line_number : Option Int
deriving DecidableEq

/-- `AsyncAPIGenerator._sanitize_channel_id`: the source applies three
single-character `str.replace` calls (`/`, `.`, `:` each to `_`), i.e. a
character map. -/
def sanitize_channel_id (channel_name : String) : String :=
  String.mk (channel_name.data.map (fun c =>
    if c = '/' then '_' else if c = '.' then '_' else if c = ':' then '_' else c))

/-- `AsyncAPIGenerator._get_protocol`: the closed broker→protocol table,
defaulting to `"unknown"`. -/
def protocol_map : List (String × String) :=
  [ ("kafka", "kafka"), ("rabbitmq", "amqp"), ("aws-sns", "sns")
  , ("aws-sqs", "sqs"), ("aws-eventbridge", "eventbridge"), ("ibm-mq", "ibmmq") ]

/-- `AsyncAPIGenerator._get_protocol(broker)`. -/
def get_protocol (broker : String) : String :=
  (protocol_map.lookup broker).getD "unknown"

/-- Python `str.capitalize()`: first character upper-cased, the rest
lower-cased. -/
def pyCapitalize (s : String) : String :=
  match s.data with
  | [] => ""
  | c :: rest => String.mk (c.toUpper :: rest.map Char.toLower)

/-- Python `str.split('/')` (single-character separator). -/
def splitOnSlashAux : List Char → List Char → List String
  | cur, [] => [String.mk cur.reverse]
  | cur, c :: rest =>
    if c = '/' then String.mk cur.reverse :: splitOnSlashAux [] rest
    else splitOnSlashAux (c :: cur) rest

/-- Python `str.split('/')`. -/
def splitOnSlash (s : String) : List String :=
  splitOnSlashAux [] s.data

/-- The one environment variable every server entry declares. -/
structure EnvVariable where
  default : String
  enum : List String
deriving DecidableEq

/-- Broker-specific server `bindings` (`kafka` schema registry, `amqp`
exchange, `aws` region). -/
inductive ServerBindings where
  | kafka (schemaRegistryUrl : String)
  | amqp (exchange : String)
  | aws (region : String)
deriving DecidableEq

/-- One entry of the 3.0 document's `servers` map. -/
structure ServerConfig where
  host : String
  protocol : String
  description : String
  serverVariables : List (String × EnvVariable)
  bindings : Option ServerBindings
deriving DecidableEq

/-- `AsyncAPIGenerator._get_server_config(broker, events)` (the `events`
argument is accepted and unused, exactly as in the source). -/
def get_server_config (broker : String) (events : List GEvent) : ServerConfig :=
  let _ := events
  { host := "\x7benvironment\x7d.example.com"
    protocol := get_protocol broker
    description := String.mk (broker.data.map Char.toUpper) ++ " message broker"
    serverVariables := [("environment", { default := "dev", enum := ["dev", "staging", "prod"] })]
    bindings :=
      if broker = "kafka" then
        Option.some (.kafka "https://schema-registry.example.com")
      else if broker = "rabbitmq" then
        Option.some (.amqp "default")
      else if broker.data.take 4 = "aws-".data then
        Option.some (.aws "us-east-1")
      else
        Option.none }

/-- `AsyncAPIGenerator._generate_servers(events)`. -/
def generate_servers (events : List GEvent) : List (String × ServerConfig) :=
  let brokers := pyGroupBy (fun e => e.broker.getD "unknown") events
  brokers.foldl (fun acc g => dictSet g.1 (get_server_config g.1 g.2) acc) []

/-- Broker-specific channel `bindings`. -/
inductive ChannelBindings where
  | kafka (topic : String) (partitions replicas : Nat)
  | amqp (isType exchangeName exchangeType queueName : String)
deriving DecidableEq

/-- One entry of the 3.0 document's `channels` map; `messages` maps message
ids to their `$ref` strings. -/
structure ChannelObj where
  address : String
  description : String
  messages : List (String × String)
  bindings : Option ChannelBindings
deriving DecidableEq

/-- The default event record (`events[0]` is only taken on the nonempty
groups produced by grouping, so the fallback is never reached). -/
def defaultGEvent : GEvent :=
  { name := Option.none, channel_name := Option.none, broker := Option.none
    operation := Option.none, channel_type := Option.none
    message_type := Option.none, repository := Option.none
    file_path := Option.none, line_number := Option.none }

/-- `AsyncAPIGenerator._create_channel(channel_name, events)`. -/
def create_channel (channel_name : String) (events : List GEvent) : ChannelObj :=
  let first_event := events.headD defaultGEvent
  let broker := first_event.broker.getD "unknown"
  let channel_type := first_event.channel_type.getD "topic"
  let messages := (List.range events.length).foldl
    (fun acc idx =>
      let message_id := sanitize_channel_id channel_name ++ "_message_" ++ toString idx
      dictSet message_id ("#/components/messages/" ++ message_id) acc) []
  { address := channel_name
    description := "Channel: " ++ channel_name
    messages := messages
    bindings :=
      if broker = "kafka" then
        Option.some (.kafka channel_name 3 2)
      else if broker = "rabbitmq" then
        let parts := splitOnSlash channel_name
        Option.some (.amqp channel_type
          (if 1 < parts.length then parts.headD "" else "default")
          "topic"
          (if 1 < parts.length then parts.getD 1 "" else channel_name))
      else
        Option.none }

/-- `AsyncAPIGenerator._generate_channels(events)`. -/
def generate_channels (events : List GEvent) : List (String × ChannelObj) :=
  let channel_groups := pyGroupBy (fun e => e.channel_name.getD "unknown") events
  channel_groups.foldl
    (fun acc g => dictSet (sanitize_channel_id g.1) (create_channel g.1 g.2) acc) []

/-- One accumulated entry of the `channel_operations` dictionary of
`_generate_operations`: the channel name and operation stored at creation
time plus the accumulated events. -/
structure OpGroup where
  channel : String
  operation : String
  events : List GEvent
deriving DecidableEq

/-- The `channel_operations` accumulation: create the entry on first sight
of a channel id, then append the event to its list. -/
def opUpsert (cid channel_name operation : String) (e : GEvent) :
    List (String × OpGroup) → List (String × OpGroup)
  | [] => [(cid, { channel := channel_name, operation := operation, events := [e] })]
  | (k, g) :: rest =>
    if k = cid then (k, { g with events := g.events ++ [e] }) :: rest
    else (k, g) :: opUpsert cid channel_name operation e rest

/-- One entry of the 3.0 document's `operations` map. -/
structure OperationObj where
  action : String
  channelRef : String
  description : String
  messages : List String
deriving DecidableEq

/-- `AsyncAPIGenerator._generate_operations(events)`. -/
def generate_operations (events : List GEvent) : List (String × OperationObj) :=
  let channel_operations := events.foldl
    (fun acc e =>
      let channel_name := e.channel_name.getD "unknown"
      let channel_id := sanitize_channel_id channel_name
      let operation := e.operation.getD "send"
      opUpsert channel_id channel_name operation e acc) []
  channel_operations.foldl
    (fun acc g =>
      let operation_id := g.2.operation ++ "_" ++ g.1
      dictSet operation_id
        { action := g.2.operation
          channelRef := "#/channels/" ++ g.1
          description := pyCapitalize g.2.operation ++ " messages to " ++ g.2.channel
          messages := (List.range g.2.events.length).map
            (fun idx => "#/channels/" ++ g.1 ++ "/messages/" ++ g.1 ++ "_message_" ++ toString idx) }
        acc) []

/-- One entry of `components.messages`. -/
structure MessageObj where
  name : String
  title : String
  summary : String
  contentType : String
  payloadRef : String
  sourceRepository : String
  sourceFilePath : String
  sourceLineNumber : Int
deriving DecidableEq

/-- One entry of `components.schemas`: the template payload schema of
`_create_schema` (fixed `eventId`/`timestamp`/`eventType`/`payload`
properties; only the `message_type`-derived parts vary). -/
structure SchemaObj where
  type : String
  title : String
  description : String
  eventTypeConst : String
  required : List String
deriving DecidableEq

/-- `AsyncAPIGenerator._create_schema(event)`. -/
def create_schema (event : GEvent) : SchemaObj :=
  let message_type := event.message_type.getD "Unknown"
  { type := "object"
    title := message_type
    description := "Schema for " ++ message_type ++ " (to be enriched with actual fields)"
    eventTypeConst := message_type
    required := ["eventId", "timestamp", "eventType"] }

/-- The `components` section. -/
structure Components where
  messages : List (String × MessageObj)
  schemas : List (String × SchemaObj)
deriving DecidableEq

/-- The comprehension
`[e for e in events if e.get('channel_name') == channel_name]` of
`_generate_components`, for `channel_name = event.get('channel_name',
'unknown')` (an absent field compares unequal to any string, so an event
without `channel_name` is missing from its own group). -/
def compGroup (all : List GEvent) (e : GEvent) : List GEvent :=
  all.filter (fun x => x.channel_name = Option.some (e.channel_name.getD "unknown"))

/-- Python `list.index(x)`: position of the first element equal to `x`,
raising `ValueError` when there is none. -/
def pyIndex {α : Type} [DecidableEq α] : List α → α → Except Unit Nat
  | [], _ => .error ()
  | y :: ys, x => if y = x then .ok 0 else (pyIndex ys x).map (· + 1)

/-- `AsyncAPIGenerator._generate_components(events)`.  The `list.index`
call can raise (it does whenever an event has no `channel_name` key), so
the section is an `Except` value. -/
def generate_components (events : List GEvent) : Except Unit Components := do
  let res ← events.foldlM
    (fun (acc : List (String × MessageObj) × List (String × SchemaObj)) e => do
      let channel_name := e.channel_name.getD "unknown"
      let channel_id := sanitize_channel_id channel_name
      let message_type := e.message_type.getD "Unknown"
      let event_idx ← pyIndex (compGroup events e) e
      let message_id := channel_id ++ "_message_" ++ toString event_idx
      let schema_id := message_id ++ "_payload"
      Except.ok
        ( dictSet message_id
            { name := message_type
              title := message_type ++ " Event"
              summary := "Message published to " ++ channel_name
              contentType := "application/json"
              payloadRef := "#/components/schemas/" ++ schema_id
              sourceRepository := e.repository.getD ""
              sourceFilePath := e.file_path.getD ""
              sourceLineNumber := e.line_number.getD 0 } acc.1
        , dictSet schema_id (create_schema e) acc.2 ))
    ([], [])
  Except.ok { messages := res.1, schemas := res.2 }

/-- The `x-generated` metadata block of the `info` section. -/
structure XGenerated where
  timestamp : String
  eventCount : Nat
  repositories : List String
deriving DecidableEq

/-- The `info` section of the 3.0 document. -/
structure InfoObj where
  title : String
  version : String
  description : String
  xGenerated : XGenerated
deriving DecidableEq

/-- `AsyncAPIGenerator._generate_info(service_name, events, version)`.
`pySet` is the runtime's enumeration of `set(...)` (`repos =
list(set(e.get('repository', '') for e in events))`) and `now` the
`datetime.utcnow().isoformat()` result — both are environment inputs, not
functions of the event list. -/
def generate_info (pySet : List String → List String) (now : String)
    (service_name : String) (events : List GEvent) (version : String) : InfoObj :=
  { title := service_name ++ " Event API"
    version := version
    description := "Asynchronous event API for " ++ service_name ++
      ". This specification was auto-generated from code analysis."
    xGenerated :=
      { timestamp := now ++ "Z"
        eventCount := events.length
        repositories := pySet (events.map (fun e => e.repository.getD "")) } }

/-- The full AsyncAPI 3.0 document. -/
structure Spec3 where
  asyncapi : String
  info : InfoObj
  servers : List (String × ServerConfig)
  channels : List (String × ChannelObj)
  operations : List (String × OperationObj)
  components : Components
deriving DecidableEq

/-- `AsyncAPIGenerator.generate_spec(service_name, events, version)` (with
the runtime inputs `pySet` and `now` made explicit). -/
def generate_spec (pySet : List String → List String) (now : String)
    (service_name : String) (events : List GEvent) (version : String) :
    Except Unit Spec3 := do
  let comps ← generate_components events
  Except.ok
    { asyncapi := "3.0.0"
      info := generate_info pySet now service_name events version
      servers := generate_servers events
      channels := generate_channels events
      operations := generate_operations events
      components := comps }

/-! ## `src/asyncapi_discovery/generator.py`: the AsyncAPI 2.6 generator

`AsyncAPIGenerator.generate(producers)` reads `producers.get('events',
[])` and serializes the built dictionary to YAML; the embedding takes the
event list directly and returns the document structure (serialization is
boundary I/O). -/

/-- The message block of a 2.6 channel (`payload` is the fixed
`eventId`/`timestamp`/`data` object template, represented by its constant
property table). -/
structure Message2 where
  name : String
  title : String
  contentType : String
  payloadProperties : List (String × CatProperty)
deriving DecidableEq

/-- The `subscribe` block of a 2.6 channel. -/
structure Subscribe2 where
  summary : String
  message : Message2
deriving DecidableEq

/-- One entry of the 2.6 document's `channels` map. -/
structure Channel2 where
  description : String
  subscribe : Subscribe2
deriving DecidableEq

/-- The 2.6 document of `generator.py`: fixed base spec plus the channels
map. -/
structure Spec2 where
  asyncapi : String
  infoTitle : String
  infoVersion : String
  infoDescription : String
  servers : List (String × CatServer)
  channels : List (String × Channel2)
deriving DecidableEq

/-- `AsyncAPIGenerator._create_channel(event)` (the 2.6 generator). -/
def create_channel2 (event : GEvent) : Channel2 :=
  { description := "Channel for " ++ event.name.getD "unknown" ++ " event"
    subscribe :=
      { summary := "Subscribe to " ++ event.name.getD "unknown" ++ " events"
        message :=
          { name := event.name.getD "unknown"
            title := event.name.getD "Unknown Event"
            contentType := "application/json"
            payloadProperties :=
              [ ("eventId", { type := "string", description := "Unique event identifier", format := Option.none })
              , ("timestamp", { type := "string", description := "Event timestamp", format := Option.some "date-time" })
              , ("data", { type := "object", description := "Event payload data", format := Option.none }) ] } } }

/-- The channel-accumulation loop of `AsyncAPIGenerator.generate`: a
channel is added only when its name is not yet a key. -/
def generateChannels2 : List (String × Channel2) → List GEvent → List (String × Channel2)
  | channels, [] => channels
  | channels, e :: rest =>
    let channel_name := e.name.getD "unknown"
    if channel_name ∈ channels.map Prod.fst then
      generateChannels2 channels rest
    else
      generateChannels2 (channels ++ [(channel_name, create_channel2 e)]) rest

/-- `AsyncAPIGenerator.generate(producers)` (the 2.6 generator), up to the
terminal YAML dump. -/
def generate2 (events : List GEvent) : Spec2 :=
  { asyncapi := "2.6.0"
    infoTitle := "Discovered AsyncAPI Specification"
    infoVersion := "1.0.0"
    infoDescription := "Auto-generated AsyncAPI specification from repository scanning"
    servers :=
      [ ("development",
          { url := "localhost", protocol := "amqp", description := "Development server" }) ]
    channels := generateChannels2 [] events }

/-! ## Properties of `_deduplicate_events` -/

/-- First-seen deduplication of a sequence (the order `_deduplicate_events`
preserves among surviving keys; also one valid enumeration of a Python
set built from a list). -/
def firstSeenGo {α : Type} [DecidableEq α] : List α → List α → List α
  | _, [] => []
  | seen, k :: rest =>
    if k ∈ seen then firstSeenGo seen rest else k :: firstSeenGo (k :: seen) rest

/-- Keys in first-seen order. -/
def firstSeenKeys (ks : List (String × String)) : List (String × String) :=
  firstSeenGo [] ks

theorem dedupGo_sublist (seen : List (String × String)) (l : List DEvent) :
    List.Sublist (dedupGo seen l) l := by
  induction l generalizing seen with
  | nil => simp [dedupGo]
  | cons e rest ih =>
    simp only [dedupGo]
    by_cases h : eventKey e ∈ seen
    · exact if_pos h ▸ (ih seen).cons e
    · exact if_neg h ▸ (ih (eventKey e :: seen)).cons₂ e

theorem mem_map_eventKey_dedupGo (l : List DEvent) :
    ∀ (seen : List (String × String)) (k : String × String),
      k ∈ (dedupGo seen l).map eventKey ↔ k ∉ seen ∧ k ∈ l.map eventKey := by
  induction l with
  | nil => simp [dedupGo]
  | cons e rest ih =>
    intro seen k
    simp only [dedupGo]
    by_cases h : eventKey e ∈ seen
    · rw [if_pos h, ih]
      simp only [List.map_cons, List.mem_cons]
      constructor
      · rintro ⟨hk, hmem⟩
        exact ⟨hk, Or.inr hmem⟩
      · rintro ⟨hk, rfl | h2⟩
        · exact absurd h hk
        · exact ⟨hk, h2⟩
    · rw [if_neg h]
      simp only [List.map_cons, List.mem_cons, ih, List.mem_cons]
      constructor
      · rintro (rfl | ⟨hk, hmem⟩)
        · exact ⟨h, Or.inl rfl⟩
        · exact ⟨fun hs => hk (Or.inr hs), Or.inr hmem⟩
      · rintro ⟨hk, rfl | h2⟩
        · exact Or.inl rfl
        · by_cases hke : k = eventKey e
          · exact Or.inl hke
          · exact Or.inr ⟨fun hs => (by
              rcases hs with h1 | h1
              · exact hke h1
              · exact hk h1), h2⟩

theorem nodup_map_eventKey_dedupGo (l : List DEvent) :
    ∀ seen : List (String × String), ((dedupGo seen l).map eventKey).Nodup := by
  induction l with
  | nil => simp [dedupGo]
  | cons e rest ih =>
    intro seen
    simp only [dedupGo]
    by_cases h : eventKey e ∈ seen
    · rw [if_pos h]
      exact ih seen
    · rw [if_neg h]
      simp only [List.map_cons, List.nodup_cons]
      refine ⟨fun hmem => ?_, ih _⟩
      exact ((mem_map_eventKey_dedupGo rest _ _).mp hmem).1 (List.mem_cons_self _ _)

theorem map_eventKey_dedupGo (l : List DEvent) :
    ∀ seen : List (String × String),
      (dedupGo seen l).map eventKey = firstSeenGo seen (l.map eventKey) := by
  induction l with
  | nil => simp [dedupGo, firstSeenGo]
  | cons e rest ih =>
    intro seen
    simp only [List.map_cons, firstSeenGo, dedupGo]
    by_cases h : eventKey e ∈ seen
    · simp [h, ih]
    · simp [h, ih]

theorem dedupGo_idem (l : List DEvent) :
    ∀ seen : List (String × String), dedupGo seen (dedupGo seen l) = dedupGo seen l := by
  induction l with
  | nil => simp [dedupGo]
  | cons e rest ih =>
    intro seen
    simp only [dedupGo]
    by_cases h : eventKey e ∈ seen
    · rw [if_pos h, ih]
    · rw [if_neg h]
      simp only [dedupGo, if_neg h]
      rw [ih]

theorem dedupGo_find (l : List DEvent) :
    ∀ (seen : List (String × String)) (e2 : DEvent), e2 ∈ dedupGo seen l →
      eventKey e2 ∉ seen ∧
        l.find? (fun e => decide (eventKey e = eventKey e2)) = Option.some e2 := by
  induction l with
  | nil => simp [dedupGo]
  | cons e rest ih =>
    intro seen e2 he2
    simp only [dedupGo] at he2
    by_cases h : eventKey e ∈ seen
    · rw [if_pos h] at he2
      obtain ⟨hn, hf⟩ := ih seen e2 he2
      have hne : ¬ eventKey e = eventKey e2 := fun heq => hn (heq ▸ h)
      refine ⟨hn, ?_⟩
      rw [List.find?_cons]
      simp [hne, hf]
    · rw [if_neg h] at he2
      rcases List.mem_cons.mp he2 with rfl | h2
      · refine ⟨h, ?_⟩
        rw [List.find?_cons]
        simp
      · obtain ⟨hn, hf⟩ := ih (eventKey e :: seen) e2 h2
        have hne : ¬ eventKey e = eventKey e2 :=
          fun heq => hn (heq ▸ List.mem_cons_self _ _)
        refine ⟨fun hs => hn (List.mem_cons_of_mem _ hs), ?_⟩
        rw [List.find?_cons]
        simp [hne, hf]

/-- **C2.** Deduplication keyed on `(name, broker)` yields exactly one
record per distinct key (the output key list has no duplicates and covers
exactly the input keys), the surviving records appear in first-seen key
order (the output is a subsequence of the input whose key list is the
first-seen deduplication of the input key list), and deduplication is
idempotent — in particular re-deduplicating the already-deduplicated
output of `detect_events` leaves it unchanged. -/
theorem deduplicate_events_spec (l : List DEvent) (tagged : List (PyVal × String)) :
    ((deduplicate_events l).map eventKey).Nodup
  ∧ (∀ k, k ∈ (deduplicate_events l).map eventKey ↔ k ∈ l.map eventKey)
  ∧ (deduplicate_events l).map eventKey = firstSeenKeys (l.map eventKey)
  ∧ List.Sublist (deduplicate_events l) l
  ∧ deduplicate_events (deduplicate_events l) = deduplicate_events l
  ∧ deduplicate_events (detect_events tagged) = detect_events tagged := by
  refine ⟨nodup_map_eventKey_dedupGo l [], ?_, map_eventKey_dedupGo l [],
    dedupGo_sublist [] l, dedupGo_idem l [], dedupGo_idem _ []⟩
  intro k
  rw [deduplicate_events, mem_map_eventKey_dedupGo]
  simp

/-- **C9.** The record that survives deduplication for a key is exactly the
first-encountered record with that key: every surviving record equals, in
all fields, the first record of the input with its `(name, broker)` key
(later duplicates' provenance is discarded wholesale). -/
theorem deduplicate_events_keeps_first (l : List DEvent) (e2 : DEvent)
    (h : e2 ∈ deduplicate_events l) :
    l.find? (fun e => decide (eventKey e = eventKey e2)) = Option.some e2 :=
  (dedupGo_find l [] e2 h).2

/-- Two concrete raw records sharing the key `("user.created", "generic")`
but with different provenance. -/
def dupFirst : DEvent :=
  { name := "user.created", broker := "generic", file := .str "a.py"
    repository := .str "repo1", lines := [.int 3]
    source_code := [.str "bus.emit(\"user.created\", x)"] }

/-- A later duplicate of `dupFirst`'s key with different provenance. -/
def dupSecond : DEvent :=
  { name := "user.created", broker := "generic", file := .str "b.py"
    repository := .str "repo2", lines := [.int 9]
    source_code := [.str "bus.publish(\"user.created\", y)"] }

theorem deduplicate_events_keeps_first_witness :
    [dupFirst, dupSecond].find?
      (fun e => decide (eventKey e = eventKey dupFirst)) = Option.some dupFirst :=
  deduplicate_events_keeps_first [dupFirst, dupSecond] dupFirst
    (show dupFirst ∈ deduplicate_events [dupFirst, dupSecond] from
      (show deduplicate_events [dupFirst, dupSecond] = [dupFirst] from rfl) ▸
        List.mem_singleton_self dupFirst)

/-! ## Properties of `_extract_event_name` -/

theorem find?_eq_head?_filter {α : Type} (p : α → Bool) (l : List α) :
    l.find? p = (l.filter p).head? := by
  induction l with
  | nil => rfl
  | cons a l ih =>
    by_cases h : p a
    · rw [List.find?_cons_of_pos _ h, List.filter_cons_of_pos h, List.head?_cons]
    · rw [List.find?_cons_of_neg _ (by simp [h]), List.filter_cons_of_neg (by simp [h]), ih]

/-- A line-match dictionary carrying only its matched line text (the only
key `_extract_event_name` reads). -/
def mkLineMatch (l : String) : PyVal :=
  .dict [("line", .str l)]

theorem extractGo_eq (lines : List String) :
    extractGo (lines.map mkLineMatch)
      = .ok (((lines.map (fun l => findallLits l.data)).flatten.filter qualifies).head?) := by
  induction lines with
  | nil => rfl
  | cons l rest ih =>
    have step : extractGo ((l :: rest).map mkLineMatch)
        = (match (findallLits l.data).find? qualifies with
           | Option.some s => Except.ok (Option.some s)
           | Option.none => extractGo (rest.map mkLineMatch)) := rfl
    rw [step]
    rcases h : (findallLits l.data).find? qualifies with _ | s
    · rw [find?_eq_head?_filter, List.head?_eq_none_iff] at h
      simp only [List.map_cons, List.flatten_cons, List.filter_append, h, List.nil_append]
      exact ih
    · rw [find?_eq_head?_filter] at h
      simp only [List.map_cons, List.flatten_cons, List.filter_append]
      rcases hf : (findallLits l.data).filter qualifies with _ | ⟨s2, t⟩
      · rw [hf] at h
        simp at h
      · rw [hf] at h
        simp only [List.head?_cons, Option.some.injEq] at h
        subst h
        rfl

/-- **C3.** The extracted event name is the first qualifying quoted string
literal (length > 2, not starting with an underscore) among the
`re.findall` captures of the matched lines, in encounter order across
lines, and is the synthesized default `<broker>_event` exactly when no
qualifying literal exists. -/
theorem extract_event_name_first_qualifying (lines : List String) (broker : String) :
    extract_event_name (.list (lines.map mkLineMatch)) broker
      = .ok ((((lines.map (fun l => findallLits l.data)).flatten.filter qualifies).head?).getD
          (broker ++ "_event")) := by
  have step : extract_event_name (.list (lines.map mkLineMatch)) broker
      = (do
        match ← extractGo (lines.map mkLineMatch) with
        | Option.some s => Except.ok s
        | Option.none => Except.ok (broker ++ "_event")) := rfl
  rw [step, extractGo_eq]
  cases ((lines.map (fun l => findallLits l.data)).flatten.filter qualifies).head? with
  | none => rfl
  | some s => rfl

/-! ## Properties of `_parse_event` and `detect_events` error handling -/

theorem except_bind_ok {α β : Type} (a : α) (f : α → Except Unit β) :
    (Except.ok a : Except Unit α) >>= f = f a := rfl

theorem parse_event_falsy (m : PyVal) (b : String) (v : PyVal)
    (h1 : pyGet m "lineMatches" (.list []) = .ok v) (h2 : pyTruthy v = false) :
    parse_event m b = Option.none := by
  cases m with
  | dict kvs =>
    have h1' : (kvs.lookup "lineMatches").getD (.list []) = v := by
      simpa [pyGet] using h1
    unfold parse_event
    simp only [pyGet, except_bind_ok, h1', h2]
    generalize (List.lookup "file" kvs).getD (PyVal.dict []) = fileObj
    generalize (List.lookup "repository" kvs).getD (PyVal.dict []) = repoObj
    cases fileObj <;> cases repoObj <;> rfl
  | none => simp [pyGet] at h1
  | bool b2 => simp [pyGet] at h1
  | int n => simp [pyGet] at h1
  | str s => simp [pyGet] at h1
  | list xs => simp [pyGet] at h1

theorem detect_events_skip (xs ys : List (PyVal × String)) (m : PyVal) (b : String)
    (h : parse_event m b = Option.none) :
    detect_events (xs ++ (m, b) :: ys) = detect_events (xs ++ ys) := by
  unfold detect_events
  rw [List.filterMap_append, List.filterMap_cons, h, List.filterMap_append]

/-- **C7.** A match whose line-match sequence is empty (or otherwise falsy)
yields no event record rather than an error; a malformed match — whatever
makes `_parse_event` raise, e.g. a `file` field that is not a dictionary —
is skipped on its own: `detect_events` (a total function: every raised
error is caught per match) on a batch containing it equals `detect_events`
on the batch without it, so all other matches' records are unaffected. -/
theorem detect_events_error_policy :
    (∀ (m : PyVal) (b : String) (v : PyVal),
        pyGet m "lineMatches" (.list []) = .ok v → pyTruthy v = false →
          parse_event m b = Option.none)
  ∧ (∀ (xs ys : List (PyVal × String)) (m : PyVal) (b : String),
        parse_event m b = Option.none →
          detect_events (xs ++ (m, b) :: ys) = detect_events (xs ++ ys))
  ∧ (∀ b : String, parse_event (.str "junk") b = Option.none)
  ∧ (∀ b : String,
      parse_event
        (.dict [ ("file", .str "notadict")
               , ("lineMatches", .list [.dict [("line", .str "x.emit(\"user.created\")")]]) ]) b
        = Option.none) :=
  ⟨parse_event_falsy, detect_events_skip, fun _ => rfl, fun _ => rfl⟩

/-- A match with an empty `lineMatches` list. -/
def emptyMatch : PyVal :=
  .dict [("file", .dict [("path", .str "a.py")]), ("lineMatches", .list [])]

/-- A well-formed match. -/
def goodMatch : PyVal :=
  .dict
    [ ("file", .dict [("path", .str "g.py")])
    , ("repository", .dict [("name", .str "r")])
    , ("lineMatches", .list [.dict
        [("lineNumber", .int 1), ("line", .str "bus.emit(\"user.created\", x)")]]) ]

/-- A malformed match: its `file` field is a bare string, so
`match.get('file', {}).get('path', '')` raises `AttributeError`. -/
def badMatch : PyVal :=
  .dict
    [ ("file", .str "notadict")
    , ("lineMatches", .list [.dict [("line", .str "x.emit(\"user.created\")")]]) ]

theorem detect_events_error_policy_witness :
    parse_event emptyMatch "kafka" = Option.none
  ∧ detect_events [(goodMatch, "generic"), (badMatch, "kafka")]
      = detect_events [(goodMatch, "generic")] :=
  ⟨detect_events_error_policy.1 emptyMatch "kafka" (.list []) rfl rfl,
   detect_events_error_policy.2.1 [(goodMatch, "generic")] [] badMatch "kafka" rfl⟩
/-! ## The quoted-literal scan: quote pairing and non-overlap -/

theorem quote_not_token (c : Char) (h : isQuoteChar c = true) : isTokenChar c = false := by
  rcases Bool.or_eq_true_iff.mp h with h1 | h1
  · rw [show c = '"' from by simpa using h1]
    decide
  · rw [show c = Char.ofNat 39 from by simpa using h1]
    decide

theorem takeWhile_token_append (td : List Char) (q2 : Char)
    (htok : ∀ c ∈ td, isTokenChar c = true) (hq : isTokenChar q2 = false) :
    (td ++ [q2]).takeWhile isTokenChar = td ∧ (td ++ [q2]).dropWhile isTokenChar = [q2] := by
  induction td with
  | nil => simp [List.takeWhile, List.dropWhile, hq]
  | cons c rest ih =>
    have hc : isTokenChar c = true := htok c (List.mem_cons_self _ _)
    have ih2 := ih (fun c2 hc2 => htok c2 (List.mem_cons_of_mem _ hc2))
    simp [List.takeWhile_cons, List.dropWhile_cons, hc, ih2.1, ih2.2]

theorem findall_quoted_token (q1 q2 : Char) (td : List Char)
    (hq1 : isQuoteChar q1 = true) (hq2 : isQuoteChar q2 = true)
    (hne : td ≠ []) (htok : ∀ c ∈ td, isTokenChar c = true) :
    findallLits (q1 :: (td ++ [q2])) = [String.mk td] := by
  obtain ⟨ht, hd⟩ := takeWhile_token_append td q2 htok (quote_not_token q2 hq2)
  have hlen : (q1 :: (td ++ [q2])).length = td.length + 1 + 1 := by
    simp [List.length_append]
  rw [findallLits, hlen]
  simp only [findallAux, hq1, if_true, ht, hd]
  have hcond : (!td.isEmpty && isQuoteChar q2) = true := by
    rcases td with _ | ⟨c, rest⟩
    · exact absurd rfl hne
    · simpa using hq2
  rw [hcond]
  simp

theorem extract_event_name_single (s b : String) :
    extract_event_name (.list [mkLineMatch s]) b
      = .ok (((findallLits s.data).filter qualifies).head?.getD (b ++ "_event")) := by
  have step : extract_event_name (.list ([s].map mkLineMatch)) b
      = (do
        match ← extractGo ([s].map mkLineMatch) with
        | Option.some s2 => Except.ok s2
        | Option.none => Except.ok (b ++ "_event")) := rfl
  rw [show (.list [mkLineMatch s] : PyVal) = .list ([s].map mkLineMatch) from rfl,
    step, extractGo_eq]
  have hfl : ([s].map (fun l => findallLits l.data)).flatten = findallLits s.data := by
    simp
  rw [hfl]
  cases ((findallLits s.data).filter qualifies).head? with
  | none => rfl
  | some s2 => rfl

/-- **C10 counterexample.** In the line `"ab"def"` the token `def` is
immediately preceded and followed by a quote character and passes the
length/underscore filter, yet the non-overlapping scan captures only `ab`
(the middle quote is already consumed as the closing quote of `"ab"`), so
extraction yields the synthesized default and `def` can never become the
event name. -/
theorem findall_scan_counterexample :
    findallLits "\"ab\"def\"".data = ["ab"]
  ∧ extract_event_name (.list [mkLineMatch "\"ab\"def\""]) "generic"
      = .ok "generic_event"
  ∧ qualifies "def" = true :=
  ⟨by decide, by decide, by decide⟩

/-- **C10 (amended).** Within one scanned literal the opening and closing
quote characters need not match: for any quote characters `q1`, `q2`
(equal or different) around a nonempty token of `[a-zA-Z0-9._-]`
characters, the scan captures exactly that token, and when the token also
passes the qualifying filter it becomes the extracted event name — e.g.
`orders` in the fragment `"orders'`.  Candidates are, however, produced by
the left-to-right non-overlapping scan, so a quote consumed by an earlier
match cannot also open a later one. -/
theorem findall_mismatched_quotes (b : String) (q1 q2 : Char) (td : List Char)
    (hq1 : isQuoteChar q1 = true) (hq2 : isQuoteChar q2 = true)
    (hne : td ≠ []) (htok : ∀ c ∈ td, isTokenChar c = true)
    (hqual : qualifies (String.mk td) = true) :
    findallLits (q1 :: (td ++ [q2])) = [String.mk td]
  ∧ extract_event_name (.list [mkLineMatch (String.mk (q1 :: (td ++ [q2])))]) b
      = .ok (String.mk td) := by
  have hfind := findall_quoted_token q1 q2 td hq1 hq2 hne htok
  refine ⟨hfind, ?_⟩
  rw [extract_event_name_single]
  rw [show (String.mk (q1 :: (td ++ [q2]))).data = q1 :: (td ++ [q2]) from rfl, hfind]
  simp [List.filter_cons, hqual]

theorem findall_mismatched_quotes_witness :
    findallLits ('"' :: ("orders".data ++ [Char.ofNat 39])) = ["orders"]
  ∧ extract_event_name
      (.list [mkLineMatch (String.mk ('"' :: ("orders".data ++ [Char.ofNat 39])))])
      "rabbitmq" = .ok "orders" :=
  findall_mismatched_quotes "rabbitmq" '"' (Char.ofNat 39) "orders".data
    (by decide) (by decide) (by decide) (by decide) (by decide)

/-! ## The two-match scenario (detector + document generation) -/

/-- The scenario's RabbitMQ match:
`channel.basic_publish(exchange="orders", routing_key="order.placed", ...)`. -/
def rabbitMatch : PyVal :=
  .dict
    [ ("file", .dict [("path", .str "publisher.py")])
    , ("repository", .dict [("name", .str "repo1")])
    , ("lineMatches", .list [.dict
        [ ("lineNumber", .int 10)
        , ("line", .str "channel.basic_publish(exchange=\"orders\", routing_key=\"order.placed\", ...)") ]]) ]

/-- The scenario's Kafka match: `kafkaTemplate.send("payment.processed", ...)`. -/
def kafkaMatch : PyVal :=
  .dict
    [ ("file", .dict [("path", .str "Publisher.java")])
    , ("repository", .dict [("name", .str "repo2")])
    , ("lineMatches", .list [.dict
        [ ("lineNumber", .int 45)
        , ("line", .str "kafkaTemplate.send(\"payment.processed\", ...)") ]]) ]

/-- **C1 counterexample.** On the scenario's own two matches, `detect`
extracts the name `orders` for the RabbitMQ match — the first qualifying
quoted literal of the line is the exchange name `"orders"`, which precedes
`"order.placed"` — so no record named `order.placed` is returned. -/
theorem scenario_counterexample :
    (detect_events [(rabbitMatch, "rabbitmq"), (kafkaMatch, "kafka")]).map
        (fun e => (e.name, e.broker))
      = [("orders", "rabbitmq"), ("payment.processed", "kafka")]
  ∧ ("orders" : String) ≠ "order.placed" :=
  ⟨by decide, by decide⟩

/-- **C1 (amended).** On the scenario's two matches, `detect` returns
exactly two records, `{name: "orders", broker: "rabbitmq"}` and
`{name: "payment.processed", broker: "kafka"}`.  The catalog document
built from them (`CatalogManager._create_specification`, the generator
that consumes detector records) has exactly two server entries, keyed
`rabbitmq_server` and `kafka_server` with protocols equal to the broker
names, and exactly two channel entries keyed by the raw (unsanitized)
names `orders` and `payment.processed`.  The `amqp`/`kafka` protocol
mapping and the underscore sanitization live in the AsyncAPI 3.0
generator, whose lookup and sanitizer produce those values. -/
theorem scenario_amended :
    (detect_events [(rabbitMatch, "rabbitmq"), (kafkaMatch, "kafka")]).map
        (fun e => (e.name, e.broker))
      = [("orders", "rabbitmq"), ("payment.processed", "kafka")]
  ∧ (create_specification "org/svc"
        (detect_events [(rabbitMatch, "rabbitmq"), (kafkaMatch, "kafka")])).servers.map
        (fun p => (p.1, p.2.protocol))
      = [("rabbitmq_server", "rabbitmq"), ("kafka_server", "kafka")]
  ∧ (create_specification "org/svc"
        (detect_events [(rabbitMatch, "rabbitmq"), (kafkaMatch, "kafka")])).channels.map
        Prod.fst
      = ["orders", "payment.processed"]
  ∧ get_protocol "rabbitmq" = "amqp"
  ∧ get_protocol "kafka" = "kafka"
  ∧ sanitize_channel_id "order.placed" = "order_placed"
  ∧ sanitize_channel_id "payment.processed" = "payment_processed" :=
  ⟨by decide, by decide, by decide, by decide, by decide, by decide, by decide⟩

/-! ## The empty event list (AsyncAPI 3.0 generator) -/

/-- **C6.** On the empty event list `generate_spec` succeeds and returns a
document with empty `servers`/`channels`/`operations`/`components`
sections and a well-formed version/info block: the `asyncapi` version tag
is present, the title is derived from the service identifier, the version
is the given one and the event count is zero. -/
theorem generate_spec_empty (pySet : List String → List String)
    (now service_name version : String) :
    generate_spec pySet now service_name [] version
      = Except.ok
          { asyncapi := "3.0.0"
            info := generate_info pySet now service_name [] version
            servers := []
            channels := []
            operations := []
            components := { messages := [], schemas := [] } }
  ∧ (generate_info pySet now service_name [] version).title
      = service_name ++ " Event API"
  ∧ (generate_info pySet now service_name [] version).version = version
  ∧ (generate_info pySet now service_name [] version).xGenerated.eventCount = 0 :=
  ⟨rfl, rfl, rfl, rfl⟩

/-! ## Missing `name` fields (AsyncAPI 2.6 generator) -/

theorem generateChannels2_mono (evs : List GEvent) :
    ∀ (acc : List (String × Channel2)) (k : String),
      k ∈ acc.map Prod.fst → k ∈ (generateChannels2 acc evs).map Prod.fst := by
  induction evs with
  | nil =>
    intro acc k hk
    exact hk
  | cons e rest ih =>
    intro acc k hk
    simp only [generateChannels2]
    by_cases h : e.name.getD "unknown" ∈ acc.map Prod.fst
    · rw [if_pos h]
      exact ih acc k hk
    · rw [if_neg h]
      exact ih _ k (by simp [hk])

theorem generateChannels2_covers (evs : List GEvent) :
    ∀ (acc : List (String × Channel2)) (e : GEvent), e ∈ evs →
      (e.name.getD "unknown") ∈ (generateChannels2 acc evs).map Prod.fst := by
  induction evs with
  | nil => simp
  | cons e2 rest ih =>
    intro acc e he
    simp only [generateChannels2]
    rcases List.mem_cons.mp he with rfl | h2
    · by_cases h : e.name.getD "unknown" ∈ acc.map Prod.fst
      · rw [if_pos h]
        exact generateChannels2_mono rest acc _ h
      · rw [if_neg h]
        exact generateChannels2_mono rest _ _ (by simp)
    · by_cases h : e2.name.getD "unknown" ∈ acc.map Prod.fst
      · rw [if_pos h]
        exact ih acc e h2
      · rw [if_neg h]
        exact ih _ e h2

/-- **C8.** The 2.6 generator never fails on a record lacking `name`: the
name is defaulted to `"unknown"` (both as channel key and message name)
and generation continues, producing a document whose channels cover every
record's (defaulted) name. -/
theorem generate2_defaults_missing_name (events : List GEvent) (e : GEvent)
    (he : e ∈ events) :
    (e.name.getD "unknown") ∈ (generate2 events).channels.map Prod.fst
  ∧ (e.name = Option.none →
      (create_channel2 e).subscribe.message.name = "unknown") := by
  refine ⟨generateChannels2_covers events [] e he, fun h => ?_⟩
  simp [create_channel2, h]

/-- A generator-side record with no `name` key. -/
def noNameEvent : GEvent :=
  { defaultGEvent with broker := Option.some "kafka" }

theorem generate2_defaults_missing_name_witness :
    ("unknown" : String) ∈ (generate2 [noNameEvent]).channels.map Prod.fst
  ∧ (noNameEvent.name = Option.none →
      (create_channel2 noNameEvent).subscribe.message.name = "unknown") :=
  generate2_defaults_missing_name [noNameEvent] noNameEvent
    (List.mem_singleton_self noNameEvent)

/-! ## Key-set lemmas for dictionary folds and grouping -/

theorem mem_map_fst_dictSet {α : Type} (k : String) (v : α) (l : List (String × α))
    (a : String) :
    a ∈ (dictSet k v l).map Prod.fst ↔ a = k ∨ a ∈ l.map Prod.fst := by
  induction l with
  | nil => simp [dictSet]
  | cons p rest ih =>
    rcases p with ⟨k2, v2⟩
    simp only [dictSet]
    by_cases h : k2 = k
    · subst h
      simp
    · simp only [if_neg h, List.map_cons, List.mem_cons, ih]
      constructor
      · rintro (rfl | h2 | h3)
        · exact Or.inr (Or.inl rfl)
        · exact Or.inl h2
        · exact Or.inr (Or.inr h3)
      · rintro (rfl | rfl | h3)
        · exact Or.inr (Or.inl rfl)
        · exact Or.inl rfl
        · exact Or.inr (Or.inr h3)

theorem mem_map_fst_foldl_dictSet {α β : Type} (key : β → String) (val : β → α)
    (l : List β) :
    ∀ (init : List (String × α)) (a : String),
      a ∈ ((l.foldl (fun acc b => dictSet (key b) (val b) acc) init).map Prod.fst)
        ↔ (∃ b ∈ l, a = key b) ∨ a ∈ init.map Prod.fst := by
  induction l with
  | nil => simp
  | cons b rest ih =>
    intro init a
    simp only [List.foldl_cons, ih, mem_map_fst_dictSet, List.mem_cons]
    constructor
    · rintro (⟨b2, hb2, rfl⟩ | rfl | h2)
      · exact Or.inl ⟨b2, Or.inr hb2, rfl⟩
      · exact Or.inl ⟨b, Or.inl rfl, rfl⟩
      · exact Or.inr h2
    · rintro (⟨b2, rfl | hb2, rfl⟩ | h2)
      · exact Or.inr (Or.inl rfl)
      · exact Or.inl ⟨b2, hb2, rfl⟩
      · exact Or.inr (Or.inr h2)

theorem mem_map_fst_upsertGroup {β : Type} (k : String) (e : β)
    (acc : List (String × List β)) (a : String) :
    a ∈ (upsertGroup k e acc).map Prod.fst ↔ a = k ∨ a ∈ acc.map Prod.fst := by
  induction acc with
  | nil => simp [upsertGroup]
  | cons p rest ih =>
    rcases p with ⟨k2, es⟩
    simp only [upsertGroup]
    by_cases h : k2 = k
    · subst h
      simp
    · simp only [if_neg h, List.map_cons, List.mem_cons, ih]
      constructor
      · rintro (rfl | h2 | h3)
        · exact Or.inr (Or.inl rfl)
        · exact Or.inl h2
        · exact Or.inr (Or.inr h3)
      · rintro (rfl | rfl | h3)
        · exact Or.inr (Or.inl rfl)
        · exact Or.inl rfl
        · exact Or.inr (Or.inr h3)

theorem mem_map_fst_groupGo {β : Type} (key : β → String) (l : List β) :
    ∀ (acc : List (String × List β)) (a : String),
      a ∈ (groupGo key acc l).map Prod.fst
        ↔ a ∈ acc.map Prod.fst ∨ a ∈ l.map key := by
  induction l with
  | nil => simp [groupGo]
  | cons e rest ih =>
    intro acc a
    simp only [groupGo, ih, mem_map_fst_upsertGroup, List.map_cons, List.mem_cons]
    constructor
    · rintro ((rfl | h1) | h2)
      · exact Or.inr (Or.inl rfl)
      · exact Or.inl h1
      · exact Or.inr (Or.inr h2)
    · rintro (h1 | rfl | h2)
      · exact Or.inl (Or.inr h1)
      · exact Or.inl (Or.inl rfl)
      · exact Or.inr h2

/-! ## Positions returned by `list.index` -/

/-- The value `list.index` returns when it succeeds: the position of the
first equal element. -/
def pyIndexD {α : Type} [DecidableEq α] : List α → α → Nat
  | [], _ => 0
  | y :: ys, x => if y = x then 0 else pyIndexD ys x + 1

theorem pyIndex_eq_of_mem {α : Type} [DecidableEq α] (l : List α) (x : α)
    (h : x ∈ l) : pyIndex l x = .ok (pyIndexD l x) := by
  induction l with
  | nil => cases h
  | cons y ys ih =>
    by_cases hy : y = x
    · simp [pyIndex, pyIndexD, hy]
    · rcases List.mem_cons.mp h with rfl | h2
      · exact absurd rfl hy
      · simp [pyIndex, pyIndexD, hy, ih h2, Except.map]

theorem pyIndexD_lt_length {α : Type} [DecidableEq α] (l : List α) (x : α)
    (h : x ∈ l) : pyIndexD l x < l.length := by
  induction l with
  | nil => cases h
  | cons y ys ih =>
    by_cases hy : y = x
    · simp [pyIndexD, hy]
    · rcases List.mem_cons.mp h with rfl | h2
      · exact absurd rfl hy
      · simpa [pyIndexD, hy] using ih h2

theorem pyIndexD_get {α : Type} [DecidableEq α] (l : List α) (hn : l.Nodup)
    (i : Fin l.length) : pyIndexD l (l.get i) = i := by
  induction l with
  | nil => exact absurd i.isLt (by simp)
  | cons y ys ih =>
    rcases i with ⟨iv, hi⟩
    cases iv with
    | zero => simp [pyIndexD]
    | succ j =>
      have hj : j < ys.length := Nat.lt_of_succ_lt_succ hi
      have hmem : ys.get ⟨j, hj⟩ ∈ ys := List.get_mem ys j hj
      have hy : y ≠ ys.get ⟨j, hj⟩ := by
        intro heq
        exact (List.nodup_cons.mp hn).1 (heq ▸ hmem)
      have hrec := ih (List.nodup_cons.mp hn).2 ⟨j, hj⟩
      simp only [List.get_eq_getElem] at hy hrec
      simp [pyIndexD, hy, hrec]

/-! ## The components section as a pure fold -/

/-- The message-component identifier `_generate_components` gives the
event `e` of the list `all`: channel id plus the position of the first
record equal to `e` within `e`'s channel group. -/
def msgKey (all : List GEvent) (e : GEvent) : String :=
  sanitize_channel_id (e.channel_name.getD "unknown") ++ "_message_"
    ++ toString (pyIndexD (compGroup all e) e)

/-- The message component `_generate_components` builds for `e`. -/
def msgVal (all : List GEvent) (e : GEvent) : MessageObj :=
  { name := e.message_type.getD "Unknown"
    title := e.message_type.getD "Unknown" ++ " Event"
    summary := "Message published to " ++ e.channel_name.getD "unknown"
    contentType := "application/json"
    payloadRef := "#/components/schemas/" ++ msgKey all e ++ "_payload"
    sourceRepository := e.repository.getD ""
    sourceFilePath := e.file_path.getD ""
    sourceLineNumber := e.line_number.getD 0 }

/-- The messages/schemas accumulation of `_generate_components`, as a pure
fold (meaningful when every event carries a `channel_name`). -/
def compFold (all : List GEvent) :
    List (String × MessageObj) × List (String × SchemaObj) :=
  all.foldl
    (fun acc e =>
      ( dictSet (msgKey all e) (msgVal all e) acc.1
      , dictSet (msgKey all e ++ "_payload") (create_schema e) acc.2)) ([], [])

theorem generate_components_ok (all : List GEvent)
    (hc : ∀ e ∈ all, (e.channel_name).isSome = true) :
    generate_components all
      = Except.ok { messages := (compFold all).1, schemas := (compFold all).2 } := by
  have main : ∀ (todo : List GEvent), (∀ e ∈ todo, e ∈ all) →
      ∀ (acc : List (String × MessageObj) × List (String × SchemaObj)),
        List.foldlM
          (fun (acc : List (String × MessageObj) × List (String × SchemaObj)) e => do
            let channel_name := e.channel_name.getD "unknown"
            let channel_id := sanitize_channel_id channel_name
            let message_type := e.message_type.getD "Unknown"
            let event_idx ← pyIndex (compGroup all e) e
            let message_id := channel_id ++ "_message_" ++ toString event_idx
            let schema_id := message_id ++ "_payload"
            Except.ok
              ( dictSet message_id
                  { name := message_type
                    title := message_type ++ " Event"
                    summary := "Message published to " ++ channel_name
                    contentType := "application/json"
                    payloadRef := "#/components/schemas/" ++ schema_id
                    sourceRepository := e.repository.getD ""
                    sourceFilePath := e.file_path.getD ""
                    sourceLineNumber := e.line_number.getD 0 } acc.1
              , dictSet schema_id (create_schema e) acc.2 ))
          acc todo
        = Except.ok (todo.foldl
            (fun acc e =>
              ( dictSet (msgKey all e) (msgVal all e) acc.1
              , dictSet (msgKey all e ++ "_payload") (create_schema e) acc.2)) acc) := by
    intro todo
    induction todo with
    | nil =>
      intro _ acc
      rfl
    | cons e rest ih =>
      intro hmem acc
      have he : e ∈ all := hmem e (List.mem_cons_self _ _)
      obtain ⟨cn, hcn⟩ := Option.isSome_iff_exists.mp (hc e he)
      have hein : e ∈ compGroup all e := by
        unfold compGroup
        rw [List.mem_filter]
        exact ⟨he, by simp [hcn]⟩
      rw [List.foldlM_cons, pyIndex_eq_of_mem _ _ hein]
      simp only [except_bind_ok]
      rw [List.foldl_cons]
      exact ih (fun e2 he2 => hmem e2 (List.mem_cons_of_mem _ he2)) _
  unfold generate_components
  rw [main all (fun e he => he) ([], [])]
  rfl

theorem mem_map_fst_pairFoldDict {β γ δ2 : Type} (key1 key2 : β → String)
    (val1 : β → γ) (val2 : β → δ2) (l : List β) :
    ∀ (acc : List (String × γ) × List (String × δ2)) (a : String),
      (a ∈ ((l.foldl (fun acc b =>
            ( dictSet (key1 b) (val1 b) acc.1
            , dictSet (key2 b) (val2 b) acc.2)) acc).1).map Prod.fst
        ↔ (∃ b ∈ l, a = key1 b) ∨ a ∈ acc.1.map Prod.fst)
    ∧ (a ∈ ((l.foldl (fun acc b =>
            ( dictSet (key1 b) (val1 b) acc.1
            , dictSet (key2 b) (val2 b) acc.2)) acc).2).map Prod.fst
        ↔ (∃ b ∈ l, a = key2 b) ∨ a ∈ acc.2.map Prod.fst) := by
  induction l with
  | nil => simp
  | cons b rest ih =>
    intro acc a
    constructor
    · rw [List.foldl_cons]
      rw [(ih _ a).1]
      simp only [mem_map_fst_dictSet, List.mem_cons]
      constructor
      · rintro (⟨b2, hb2, rfl⟩ | rfl | h2)
        · exact Or.inl ⟨b2, Or.inr hb2, rfl⟩
        · exact Or.inl ⟨b, Or.inl rfl, rfl⟩
        · exact Or.inr h2
      · rintro (⟨b2, rfl | hb2, rfl⟩ | h2)
        · exact Or.inr (Or.inl rfl)
        · exact Or.inl ⟨b2, hb2, rfl⟩
        · exact Or.inr (Or.inr h2)
    · rw [List.foldl_cons]
      rw [(ih _ a).2]
      simp only [mem_map_fst_dictSet, List.mem_cons]
      constructor
      · rintro (⟨b2, hb2, rfl⟩ | rfl | h2)
        · exact Or.inl ⟨b2, Or.inr hb2, rfl⟩
        · exact Or.inl ⟨b, Or.inl rfl, rfl⟩
        · exact Or.inr h2
      · rintro (⟨b2, rfl | hb2, rfl⟩ | h2)
        · exact Or.inr (Or.inl rfl)
        · exact Or.inl ⟨b2, hb2, rfl⟩
        · exact Or.inr (Or.inr h2)

theorem mem_map_fst_compFold_fst (all : List GEvent) (a : String) :
    a ∈ (compFold all).1.map Prod.fst ↔ ∃ e ∈ all, a = msgKey all e := by
  have h := (mem_map_fst_pairFoldDict (fun e => msgKey all e)
    (fun e => msgKey all e ++ "_payload") (fun e => msgVal all e)
    (fun e => create_schema e) all ([], []) a).1
  simpa [compFold] using h

theorem mem_map_fst_compFold_snd (all : List GEvent) (a : String) :
    a ∈ (compFold all).2.map Prod.fst ↔ ∃ e ∈ all, a = msgKey all e ++ "_payload" := by
  have h := (mem_map_fst_pairFoldDict (fun e => msgKey all e)
    (fun e => msgKey all e ++ "_payload") (fun e => msgVal all e)
    (fun e => create_schema e) all ([], []) a).2
  simpa [compFold] using h

/-! ## Characterizing message/schema identifier sets -/

theorem mem_msgKeys_char (all : List GEvent) (hn : all.Nodup)
    (hc : ∀ e ∈ all, (e.channel_name).isSome = true) (a : String) :
    (∃ e ∈ all, a = msgKey all e)
      ↔ ∃ cn k, Option.some cn ∈ all.map GEvent.channel_name
          ∧ k < (all.filter (fun x => x.channel_name = Option.some cn)).length
          ∧ a = sanitize_channel_id cn ++ "_message_" ++ toString k := by
  constructor
  · rintro ⟨e, he, rfl⟩
    obtain ⟨cn, hcn⟩ := Option.isSome_iff_exists.mp (hc e he)
    have hgrp : compGroup all e = all.filter (fun x => x.channel_name = Option.some cn) := by
      unfold compGroup
      rw [hcn]
      simp
    have hein : e ∈ compGroup all e := by
      unfold compGroup
      rw [List.mem_filter]
      exact ⟨he, by simp [hcn]⟩
    refine ⟨cn, pyIndexD (compGroup all e) e, ?_, ?_, ?_⟩
    · exact List.mem_map.mpr ⟨e, he, hcn⟩
    · rw [← hgrp]
      exact pyIndexD_lt_length _ _ hein
    · rw [msgKey, hcn]
      simp
  · rintro ⟨cn, k, hmem, hk, rfl⟩
    set g := all.filter (fun x => x.channel_name = Option.some cn) with hg
    have hgn : g.Nodup := hn.filter _
    set e := g.get ⟨k, hk⟩ with he_def
    have heg : e ∈ g := List.get_mem g k hk
    have hfe := List.mem_filter.mp heg
    have hcn : e.channel_name = Option.some cn := by
      simpa using hfe.2
    have hgrp : compGroup all e = g := by
      unfold compGroup
      rw [hcn, hg]
      simp
    refine ⟨e, hfe.1, ?_⟩
    rw [msgKey, hcn, hgrp]
    simp [pyIndexD_get g hgn ⟨k, hk⟩]

/-! ## Section key sets of a generated 3.0 document -/

/-- Channel keys of a generated document (empty when generation raised). -/
def docChannelKeys (d : Except Unit Spec3) : List String :=
  match d with
  | .ok s => s.channels.map Prod.fst
  | .error _ => []

/-- Server keys of a generated document. -/
def docServerKeys (d : Except Unit Spec3) : List String :=
  match d with
  | .ok s => s.servers.map Prod.fst
  | .error _ => []

/-- Message-component identifiers of a generated document. -/
def docMessageKeys (d : Except Unit Spec3) : List String :=
  match d with
  | .ok s => s.components.messages.map Prod.fst
  | .error _ => []

/-- Schema-component identifiers of a generated document. -/
def docSchemaKeys (d : Except Unit Spec3) : List String :=
  match d with
  | .ok s => s.components.schemas.map Prod.fst
  | .error _ => []

theorem mem_map_fst_pyGroupBy {β : Type} (key : β → String) (l : List β) (a : String) :
    a ∈ (pyGroupBy key l).map Prod.fst ↔ a ∈ l.map key := by
  rw [pyGroupBy, mem_map_fst_groupGo]
  simp

theorem docSections_eq (pySet : List String → List String) (now svc ver : String)
    (events : List GEvent) (hc : ∀ e ∈ events, (e.channel_name).isSome = true) :
    docChannelKeys (generate_spec pySet now svc events ver)
        = (generate_channels events).map Prod.fst
  ∧ docServerKeys (generate_spec pySet now svc events ver)
        = (generate_servers events).map Prod.fst
  ∧ docMessageKeys (generate_spec pySet now svc events ver)
        = (compFold events).1.map Prod.fst
  ∧ docSchemaKeys (generate_spec pySet now svc events ver)
        = (compFold events).2.map Prod.fst := by
  unfold generate_spec
  rw [generate_components_ok events hc]
  exact ⟨rfl, rfl, rfl, rfl⟩

theorem mem_generate_channels_keys (events : List GEvent) (a : String) :
    a ∈ (generate_channels events).map Prod.fst
      ↔ ∃ e ∈ events, a = sanitize_channel_id (e.channel_name.getD "unknown") := by
  have h := mem_map_fst_foldl_dictSet
    (fun g : String × List GEvent => sanitize_channel_id g.1)
    (fun g : String × List GEvent => create_channel g.1 g.2)
    (pyGroupBy (fun e => e.channel_name.getD "unknown") events) [] a
  refine Iff.trans h ?_
  simp only [List.map_nil, List.mem_nil_iff, or_false]
  constructor
  · rintro ⟨g, hg, rfl⟩
    have hk : g.1 ∈ (pyGroupBy (fun e => e.channel_name.getD "unknown") events).map Prod.fst :=
      List.mem_map.mpr ⟨g, hg, rfl⟩
    have hk2 := (mem_map_fst_pyGroupBy (fun e => e.channel_name.getD "unknown") events g.1).mp hk
    obtain ⟨e, he, hke⟩ := List.mem_map.mp hk2
    exact ⟨e, he, by rw [hke]⟩
  · rintro ⟨e, he, rfl⟩
    have hk : e.channel_name.getD "unknown"
        ∈ (pyGroupBy (fun e => e.channel_name.getD "unknown") events).map Prod.fst := by
      rw [mem_map_fst_pyGroupBy]
      exact List.mem_map.mpr ⟨e, he, rfl⟩
    obtain ⟨g, hg, hke⟩ := List.mem_map.mp hk
    exact ⟨g, hg, by rw [hke]⟩

theorem mem_generate_servers_keys (events : List GEvent) (a : String) :
    a ∈ (generate_servers events).map Prod.fst
      ↔ ∃ e ∈ events, a = e.broker.getD "unknown" := by
  have h := mem_map_fst_foldl_dictSet
    (fun g : String × List GEvent => g.1)
    (fun g : String × List GEvent => get_server_config g.1 g.2)
    (pyGroupBy (fun e => e.broker.getD "unknown") events) [] a
  refine Iff.trans h ?_
  simp only [List.map_nil, List.mem_nil_iff, or_false]
  constructor
  · rintro ⟨g, hg, rfl⟩
    have hk : g.1 ∈ (pyGroupBy (fun e => e.broker.getD "unknown") events).map Prod.fst :=
      List.mem_map.mpr ⟨g, hg, rfl⟩
    have hk2 := (mem_map_fst_pyGroupBy (fun e => e.broker.getD "unknown") events g.1).mp hk
    obtain ⟨e, he, hke⟩ := List.mem_map.mp hk2
    exact ⟨e, he, hke.symm⟩
  · rintro ⟨e, he, rfl⟩
    have hk : e.broker.getD "unknown"
        ∈ (pyGroupBy (fun e => e.broker.getD "unknown") events).map Prod.fst := by
      rw [mem_map_fst_pyGroupBy]
      exact List.mem_map.mpr ⟨e, he, rfl⟩
    obtain ⟨g, hg, hke⟩ := List.mem_map.mp hk
    exact ⟨g, hg, hke.symm⟩

/-! ## Permutation invariance of generated key sets -/

/-- **C4 (amended).** For every event list of pairwise-distinct records
each carrying a `channel_name`, permuting the input list leaves the
generated document's set of channel keys, set of server keys, and sets of
message and schema component identifiers unchanged (membership in each key
list is invariant; the generation timestamp plays no role in any of
them). -/
theorem generate_spec_perm_invariant (pySet : List String → List String)
    (now svc ver : String) (events events2 : List GEvent)
    (hp : events2.Perm events) (hn : events.Nodup)
    (hc : ∀ e ∈ events, (e.channel_name).isSome = true) :
    (∀ a, a ∈ docChannelKeys (generate_spec pySet now svc events2 ver)
        ↔ a ∈ docChannelKeys (generate_spec pySet now svc events ver))
  ∧ (∀ a, a ∈ docServerKeys (generate_spec pySet now svc events2 ver)
        ↔ a ∈ docServerKeys (generate_spec pySet now svc events ver))
  ∧ (∀ a, a ∈ docMessageKeys (generate_spec pySet now svc events2 ver)
        ↔ a ∈ docMessageKeys (generate_spec pySet now svc events ver))
  ∧ (∀ a, a ∈ docSchemaKeys (generate_spec pySet now svc events2 ver)
        ↔ a ∈ docSchemaKeys (generate_spec pySet now svc events ver)) := by
  have hc2 : ∀ e ∈ events2, (e.channel_name).isSome = true :=
    fun e he => hc e (hp.mem_iff.mp he)
  have hn2 : events2.Nodup := hp.nodup_iff.mpr hn
  obtain ⟨hch, hsv, hmg, hsc⟩ := docSections_eq pySet now svc ver events hc
  obtain ⟨hch2, hsv2, hmg2, hsc2⟩ := docSections_eq pySet now svc ver events2 hc2
  refine ⟨?_, ?_, ?_, ?_⟩
  · intro a
    rw [hch, hch2, mem_generate_channels_keys, mem_generate_channels_keys]
    constructor
    · rintro ⟨e, he, rfl⟩
      exact ⟨e, hp.mem_iff.mp he, rfl⟩
    · rintro ⟨e, he, rfl⟩
      exact ⟨e, hp.mem_iff.mpr he, rfl⟩
  · intro a
    rw [hsv, hsv2, mem_generate_servers_keys, mem_generate_servers_keys]
    constructor
    · rintro ⟨e, he, rfl⟩
      exact ⟨e, hp.mem_iff.mp he, rfl⟩
    · rintro ⟨e, he, rfl⟩
      exact ⟨e, hp.mem_iff.mpr he, rfl⟩
  · intro a
    rw [hmg, hmg2, mem_map_fst_compFold_fst, mem_map_fst_compFold_fst,
      mem_msgKeys_char events hn hc, mem_msgKeys_char events2 hn2 hc2]
    constructor
    · rintro ⟨cn, k, h1, h2, rfl⟩
      exact ⟨cn, k, (hp.map GEvent.channel_name).mem_iff.mp h1,
        lt_of_lt_of_eq h2 ((hp.filter _).length_eq), rfl⟩
    · rintro ⟨cn, k, h1, h2, rfl⟩
      exact ⟨cn, k, (hp.map GEvent.channel_name).mem_iff.mpr h1,
        lt_of_lt_of_eq h2 ((hp.filter _).length_eq).symm, rfl⟩
  · intro a
    rw [hsc, hsc2, mem_map_fst_compFold_snd, mem_map_fst_compFold_snd]
    constructor
    · rintro ⟨e, he, rfl⟩
      obtain ⟨cn, k, h1, h2, hkey⟩ :=
        (mem_msgKeys_char events2 hn2 hc2 (msgKey events2 e)).mp ⟨e, he, rfl⟩
      obtain ⟨e3, he3, hkey3⟩ := (mem_msgKeys_char events hn hc
        (sanitize_channel_id cn ++ "_message_" ++ toString k)).mpr
        ⟨cn, k, (hp.map GEvent.channel_name).mem_iff.mp h1,
          lt_of_lt_of_eq h2 ((hp.filter _).length_eq), rfl⟩
      exact ⟨e3, he3, by rw [hkey, hkey3]⟩
    · rintro ⟨e, he, rfl⟩
      obtain ⟨cn, k, h1, h2, hkey⟩ :=
        (mem_msgKeys_char events hn hc (msgKey events e)).mp ⟨e, he, rfl⟩
      obtain ⟨e3, he3, hkey3⟩ := (mem_msgKeys_char events2 hn2 hc2
        (sanitize_channel_id cn ++ "_message_" ++ toString k)).mpr
        ⟨cn, k, (hp.map GEvent.channel_name).mem_iff.mpr h1,
          lt_of_lt_of_eq h2 ((hp.filter _).length_eq).symm, rfl⟩
      exact ⟨e3, he3, by rw [hkey, hkey3]⟩

/-- An event on channel `c` with message type `A`. -/
def permEventA : GEvent :=
  { defaultGEvent with channel_name := Option.some "c", message_type := Option.some "A" }

/-- A second, distinct event on the same channel `c`. -/
def permEventB : GEvent :=
  { defaultGEvent with channel_name := Option.some "c", message_type := Option.some "B" }

/-- **C4 counterexample.** With the duplicate-containing list
`[A, B, B]` (all on channel `c`), the message-component identifiers are
`{c_message_0, c_message_1}` (both copies of `B` resolve to the first
index `1`), while the permuted list `[B, B, A]` yields
`{c_message_0, c_message_2}` — the identifier sets differ, so `generate`
as claimed is not order-insensitive on arbitrary event lists. -/
theorem generate_spec_perm_counterexample :
    List.Perm [permEventB, permEventB, permEventA] [permEventA, permEventB, permEventB]
  ∧ "c_message_1" ∈ docMessageKeys
      (generate_spec (fun xs => xs) "T" "svc" [permEventA, permEventB, permEventB] "1.0.0")
  ∧ "c_message_1" ∉ docMessageKeys
      (generate_spec (fun xs => xs) "T" "svc" [permEventB, permEventB, permEventA] "1.0.0") :=
  ⟨by decide, by decide, by decide⟩

theorem generate_spec_perm_invariant_witness :
    "c_message_0" ∈ docMessageKeys
        (generate_spec (fun xs => xs) "T" "svc" [permEventB, permEventA] "1.0.0")
  ↔ "c_message_0" ∈ docMessageKeys
        (generate_spec (fun xs => xs) "T" "svc" [permEventA, permEventB] "1.0.0") :=
  (generate_spec_perm_invariant (fun xs => xs) "T" "svc" "1.0.0"
    [permEventA, permEventB] [permEventB, permEventA]
    (by decide) (by decide) (by decide)).2.2.1 "c_message_0"

/-! ## Determinism of `generate_spec` up to runtime inputs

`_generate_info` computes `repos = list(set(...))`.  A Python `set` of
strings has no specified enumeration order — with hash randomization
(`PYTHONHASHSEED`) two runs of the same program may enumerate the same set
in different orders — so a run's enumeration is modelled as a function
`pySet` that returns the set's elements, without duplicates, in some
order. -/

/-- A function is a valid run-enumeration of Python's `list(set(xs))`:
duplicate-free and containing exactly the elements of `xs`. -/
def validSetEnum (f : List String → List String) : Prop :=
  ∀ xs, (f xs).Nodup ∧ ∀ a, a ∈ f xs ↔ a ∈ xs

theorem mem_firstSeenGo {α : Type} [DecidableEq α] (l : List α) :
    ∀ (seen : List α) (a : α), a ∈ firstSeenGo seen l ↔ a ∉ seen ∧ a ∈ l := by
  induction l with
  | nil => simp [firstSeenGo]
  | cons k rest ih =>
    intro seen a
    simp only [firstSeenGo]
    by_cases h : k ∈ seen
    · rw [if_pos h, ih]
      simp only [List.mem_cons]
      constructor
      · rintro ⟨ha, hmem⟩
        exact ⟨ha, Or.inr hmem⟩
      · rintro ⟨ha, rfl | h2⟩
        · exact absurd h ha
        · exact ⟨ha, h2⟩
    · rw [if_neg h]
      simp only [List.mem_cons, ih]
      constructor
      · rintro (rfl | ⟨ha, hmem⟩)
        · exact ⟨h, Or.inl rfl⟩
        · exact ⟨fun hs => ha (Or.inr hs), Or.inr hmem⟩
      · rintro ⟨ha, rfl | h2⟩
        · exact Or.inl rfl
        · by_cases hak : a = k
          · exact Or.inl hak
          · exact Or.inr ⟨fun hs => (by
              rcases hs with h1 | h1
              · exact hak h1
              · exact ha h1), h2⟩

theorem nodup_firstSeenGo {α : Type} [DecidableEq α] (l : List α) :
    ∀ seen : List α, (firstSeenGo seen l).Nodup := by
  induction l with
  | nil => simp [firstSeenGo]
  | cons k rest ih =>
    intro seen
    simp only [firstSeenGo]
    by_cases h : k ∈ seen
    · rw [if_pos h]
      exact ih seen
    · rw [if_neg h]
      rw [List.nodup_cons]
      refine ⟨fun hmem => ?_, ih _⟩
      exact ((mem_firstSeenGo rest _ _).mp hmem).1 (List.mem_cons_self _ _)

/-- One concrete valid set enumeration: first-seen order. -/
def firstSeenStr (xs : List String) : List String :=
  firstSeenGo [] xs

theorem firstSeenStr_valid : validSetEnum firstSeenStr := by
  intro xs
  refine ⟨nodup_firstSeenGo xs [], fun a => ?_⟩
  rw [firstSeenStr, mem_firstSeenGo]
  simp

/-- Another valid set enumeration: the same set in the opposite order
(as a different run with a different hash seed may produce). -/
theorem firstSeenStr_reverse_valid :
    validSetEnum (fun xs => (firstSeenStr xs).reverse) := by
  intro xs
  refine ⟨List.nodup_reverse.mpr (firstSeenStr_valid xs).1, fun a => ?_⟩
  rw [List.mem_reverse]
  exact (firstSeenStr_valid xs).2 a

/-- Erase the generation timestamp of a document. -/
def eraseTimestamp : Except Unit Spec3 → Except Unit Spec3
  | .error e => .error e
  | .ok s => .ok { s with info := { s.info with
      xGenerated := { s.info.xGenerated with timestamp := "" } } }

/-- Erase the generation timestamp and the repositories list. -/
def eraseTimestampRepos : Except Unit Spec3 → Except Unit Spec3
  | .error e => .error e
  | .ok s => .ok { s with info := { s.info with
      xGenerated := { s.info.xGenerated with timestamp := "", repositories := [] } } }

/-- The repositories list recorded in a document's info block. -/
def docRepositories : Except Unit Spec3 → List String
  | .error _ => []
  | .ok s => s.info.xGenerated.repositories

/-- Two generator-side records with distinct repositories. -/
def repoEventA : GEvent :=
  { defaultGEvent with channel_name := Option.some "c", repository := Option.some "r1" }

/-- A second record with a different repository. -/
def repoEventB : GEvent :=
  { defaultGEvent with channel_name := Option.some "c2", repository := Option.some "r2" }

/-- **C5 counterexample.** Two runs on identical inputs that enumerate the
repository set in different (both valid) orders produce documents that
differ outside the timestamp fields: the `info.x-generated.repositories`
lists are `["r1", "r2"]` and `["r2", "r1"]`. -/
theorem generate_spec_determinism_counterexample :
    validSetEnum firstSeenStr
  ∧ validSetEnum (fun xs => (firstSeenStr xs).reverse)
  ∧ eraseTimestamp
        (generate_spec firstSeenStr "T1" "svc" [repoEventA, repoEventB] "1.0.0")
      ≠ eraseTimestamp
        (generate_spec (fun xs => (firstSeenStr xs).reverse) "T2" "svc"
          [repoEventA, repoEventB] "1.0.0") :=
  ⟨firstSeenStr_valid, firstSeenStr_reverse_valid, by decide⟩

/-- **C5 (amended).** For any two runs of `generate_spec` on identical
service/event/version inputs — runs may differ in wall clock and in the
runtime's (valid) enumeration order of the repository set — the resulting
documents are identical except in the timestamp field and in the order of
the `info.x-generated.repositories` list, whose membership and
duplicate-freedom agree between the runs. -/
theorem generate_spec_deterministic_mod_repo_order
    (f1 f2 : List String → List String) (t1 t2 svc ver : String)
    (events : List GEvent) (h1 : validSetEnum f1) (h2 : validSetEnum f2) :
    eraseTimestampRepos (generate_spec f1 t1 svc events ver)
      = eraseTimestampRepos (generate_spec f2 t2 svc events ver)
  ∧ (∀ a, a ∈ docRepositories (generate_spec f1 t1 svc events ver)
        ↔ a ∈ docRepositories (generate_spec f2 t2 svc events ver))
  ∧ (docRepositories (generate_spec f1 t1 svc events ver)).Nodup
  ∧ (docRepositories (generate_spec f2 t2 svc events ver)).Nodup := by
  rcases hcomp : generate_components events with err | c
  · have e1 : generate_spec f1 t1 svc events ver = .error err := by
      unfold generate_spec
      rw [hcomp]
      rfl
    have e2 : generate_spec f2 t2 svc events ver = .error err := by
      unfold generate_spec
      rw [hcomp]
      rfl
    rw [e1, e2]
    exact ⟨rfl, fun a => Iff.rfl, List.nodup_nil, List.nodup_nil⟩
  · have r1 : docRepositories (generate_spec f1 t1 svc events ver)
        = f1 (events.map (fun e => e.repository.getD "")) := by
      unfold generate_spec
      rw [hcomp]
      rfl
    have r2 : docRepositories (generate_spec f2 t2 svc events ver)
        = f2 (events.map (fun e => e.repository.getD "")) := by
      unfold generate_spec
      rw [hcomp]
      rfl
    refine ⟨?_, ?_, ?_, ?_⟩
    · unfold generate_spec
      rw [hcomp]
      rfl
    · intro a
      rw [r1, r2]
      exact ((h1 _).2 a).trans ((h2 _).2 a).symm
    · rw [r1]
      exact (h1 _).1
    · rw [r2]
      exact (h2 _).1

theorem generate_spec_deterministic_mod_repo_order_witness :
    eraseTimestampRepos
        (generate_spec firstSeenStr "T1" "svc" [repoEventA, repoEventB] "1.0.0")
      = eraseTimestampRepos
        (generate_spec (fun xs => (firstSeenStr xs).reverse) "T2" "svc"
          [repoEventA, repoEventB] "1.0.0") :=
  (generate_spec_deterministic_mod_repo_order firstSeenStr
    (fun xs => (firstSeenStr xs).reverse) "T1" "T2" "svc" "1.0.0"
    [repoEventA, repoEventB] firstSeenStr_valid firstSeenStr_reverse_valid).1
